import Mathlib

/-
Shallow embedding of the opendex-launcher version-resolution-and-materialization
core (Go sources: core/github.go, core/launcher.go, utils/file.go, main.go).

Network effects are modelled by an explicit oracle (`Net`) giving the decoded
response of each outbound API endpoint, and every network-touching function
returns, alongside its result, the list of API calls it performed.  Go panics
(failed type assertions) are modelled by a dedicated `Outcome.panic` value.
-/

set_option autoImplicit false

namespace OpendexLauncher

/-- Errors of the Go code: the sentinel ErrNotFound, a plain errors.New message,
and a fmt.Errorf wrap with a stage label (corresponding to a %w wrap). -/
inductive GoError where
  | notFound
  | msg (s : String)
  | wrapped (label : String) (e : GoError)
deriving Repr, DecidableEq

/-- errors.Is(err, ErrNotFound): unwraps %w chains down to the sentinel. -/
def GoError.isNotFound : GoError → Bool
  | .notFound => true
  | .wrapped _ e => e.isNotFound
  | .msg _ => false

/-- The rendered error text (fmt.Println of the error). -/
def GoError.text : GoError → String
  | .notFound => "not found"
  | .msg s => s
  | .wrapped label e => label ++ ": " ++ e.text

/-- Result of a Go call that may return an error or panic on a failed type
assertion. -/
inductive Outcome (α : Type) where
  | ok (a : α)
  | err (e : GoError)
  | panic
deriving Repr, DecidableEq

/-- A decoded JSON value, as json.Unmarshal into interface\x7b\x7d sees it. -/
inductive JVal where
  | null
  | bool (b : Bool)
  | num (n : Int)
  | str (s : String)
  | arr (xs : List JVal)
  | obj (fields : List (String × JVal))

/-- Lookup of a key in a decoded JSON object (Go map indexing; first match). -/
def lookupField : List (String × JVal) → String → Option JVal
  | [], _ => none
  | (k, v) :: rest, key => if k == key then some v else lookupField rest key

/-- One entry of the artifacts array of the CI artifact listing API. -/
structure Artifact where
  name : String
  sizeInBytes : Nat
  archiveDownloadUrl : String
deriving Repr, DecidableEq

/-- Decoded body of the CI artifact listing API. -/
structure ArtifactList where
  totalCount : Nat
  artifacts : List Artifact
deriving Repr, DecidableEq

/-- One entry of the workflow_runs array of the CI run listing API. -/
structure WorkflowRun where
  id : Nat
  createdAt : String
  headBranch : String
  headSha : String
deriving Repr, DecidableEq

/-- Decoded body of the CI run listing API. -/
structure WorkflowRunList where
  totalCount : Nat
  workflowRuns : List WorkflowRun
deriving Repr, DecidableEq

/-- One outbound API request of the GithubClient. -/
inductive ApiCall where
  | commitLookup (branch : String)
  | runListing (branch : String)
  | artifactListing (runId : Nat)
deriving Repr, DecidableEq

/-- The network oracle: for each endpoint, either the transport/HTTP-status
error doGet returns, or the decoded success body.  The commit endpoint's body
is kept as raw JSON because GetHeadCommit decodes it into an untyped map. -/
structure Net where
  commitResp : String → Except GoError JVal
  runsResp : String → Except GoError WorkflowRunList
  artifactsResp : Nat → Except GoError ArtifactList

/-- Decimal-digit test, Go regexp class \x5cd (ASCII only). -/
def isDigitChar (c : Char) : Bool :=
  decide ('0' ≤ c) && decide (c ≤ '9')

/-- ReleaseRef.Match: the Go regexp for a release tag, anchored at both ends,
two digits, dot, two digits, dot, two digits, then any run of characters in
which the dot metacharacter never matches a newline. -/
def releaseRefMatch (s : String) : Bool :=
  match s.data with
  | d1 :: d2 :: p1 :: d3 :: d4 :: p2 :: d5 :: d6 :: rest =>
    isDigitChar d1 && isDigitChar d2 && p1 == '.' &&
    isDigitChar d3 && isDigitChar d4 && p2 == '.' &&
    isDigitChar d5 && isDigitChar d6 && rest.all (fun c => c != '\n')
  | _ => false

/-- getResponseError: on a non-200 status, decode the body into a map and
return errors.New of its message field; the type assertion on a present but
non-string value, or an absent key (nil interface), panics.  A body that is
not a JSON object fails the decode and yields a wrapped decode error; a null
body decodes to a nil map whose indexing yields nil, so the assertion panics.
Result: ok none models a nil error (200), ok (some e) models a returned
error value. -/
def getResponseError (statusCode : Nat) (body : JVal) : Outcome (Option GoError) :=
  if statusCode == 200 then
    .ok none
  else
    match body with
    | .obj fields =>
      match lookupField fields "message" with
      | some (.str m) => .ok (some (.msg m))
      | _ => .panic
    | .null => .panic
    | _ => .ok (some (.wrapped "decode" (.msg "json decode error")))

/-- GetHeadCommit: one GET on the commits endpoint; on success the body is
unmarshalled into a map and the sha field is extracted by an unchecked type
assertion (panic when absent or not a string; a non-object body is an
unmarshal error; a null body unmarshals to a nil map and then panics). -/
def GetHeadCommit (net : Net) (branch : String) : Outcome String × List ApiCall :=
  (match net.commitResp branch with
   | .error e => .err e
   | .ok body =>
     match body with
     | .obj fields =>
       match lookupField fields "sha" with
       | some (.str s) => .ok s
       | _ => .panic
     | .null => .panic
     | _ => .err (.msg "json: cannot unmarshal into map"),
   [.commitLookup branch])

/-- The artifact name getWorkflowDownloadUrl filters by: the running OS with
the architecture hardcoded to amd64. -/
def ciArtifactName (goos : String) : String :=
  goos ++ "-amd64"

/-- The platform key as the spec defines it: running OS and CPU architecture. -/
def platformKey (goos goarch : String) : String :=
  goos ++ "-" ++ goarch

/-- getWorkflowDownloadUrl: one GET on the artifact listing endpoint; scans the
artifacts in order for the first one named GOOS-amd64 and returns its archive
download URL, or ErrNotFound when none matches. -/
def getWorkflowDownloadUrl (goos : String) (net : Net) (runId : Nat) :
    Outcome String × List ApiCall :=
  (match net.artifactsResp runId with
   | .error e => .err e
   | .ok result =>
     match result.artifacts.find? (fun a => ciArtifactName goos == a.name) with
     | some a => .ok a.archiveDownloadUrl
     | none => .err .notFound,
   [.artifactListing runId])

/-- getLastRunOfBranch: one GET on the run listing endpoint; ErrNotFound when
the list is empty; otherwise takes the first run (index 0) and returns it only
when its head_sha equals the resolved commit, else ErrNotFound. -/
def getLastRunOfBranch (net : Net) (branch commit : String) :
    Outcome WorkflowRun × List ApiCall :=
  (match net.runsResp branch with
   | .error e => .err e
   | .ok result =>
     match result.workflowRuns with
     | [] => .err .notFound
     | run :: _ =>
       if run.headSha != commit then .err .notFound else .ok run,
   [.runListing branch])

/-- The deterministic release-asset URL built on the tag path. -/
def releaseAssetUrl (goos goarch branch : String) : String :=
  "https://github.com/opendexnetwork/opendex-docker/releases/download/" ++
    branch ++ "/launcher-" ++ goos ++ "-" ++ goarch ++ ".zip"

/-- getDownloadUrl: when the branch matches ReleaseRef, the release URL is
built from the branch with no API call; otherwise the last run of the branch
is fetched (NotFound is rewrapped into a message naming the commit and
branch), and the workflow artifact URL lookup follows — whose error is
swallowed: the branch path returns an empty URL with a nil error on that
failure. -/
def getDownloadUrl (goos goarch : String) (net : Net) (branch commit : String) :
    Outcome String × List ApiCall :=
  if releaseRefMatch branch then
    (.ok (releaseAssetUrl goos goarch branch), [])
  else
    match getLastRunOfBranch net branch commit with
    | (.err e, calls) =>
      if e.isNotFound then
        (.err (.msg ("no launcher build for commit " ++ commit ++
          " (The branch \"" ++ branch ++ "\" does not have a binary launcher)")), calls)
      else
        (.err e, calls)
    | (.panic, calls) => (.panic, calls)
    | (.ok run, calls) =>
      match getWorkflowDownloadUrl goos net run.id with
      | (.err _, calls2) => (.ok "", calls ++ calls2)
      | (.panic, calls2) => (.panic, calls ++ calls2)
      | (.ok url, calls2) => (.ok url, calls ++ calls2)

/-- The version-resolution step of Launcher.Start: unconditionally asks the
commits endpoint for the head of the branch and uses the returned sha as the
version identifier (launcher.go line 250). -/
def resolveVersion (net : Net) (branch : String) : Outcome String × List ApiCall :=
  GetHeadCommit net branch

/-! ## Filesystem model (utils/file.go and the materialization part of Start) -/

/-- A file with its mode bits (os.FileMode permission bits). -/
structure FSFile where
  path : String
  mode : Nat
deriving Repr, DecidableEq

/-- The filesystem as a flat list of files. -/
structure FS where
  files : List FSFile
deriving Repr, DecidableEq

/-- os.Stat restricted to the mode: none models a not-exist stat error. -/
def statMode (fs : FS) (path : String) : Option Nat :=
  (fs.files.find? (fun f => f.path == path)).map FSFile.mode

/-- utils.UserExecutable = 1 shifted left by 6: the owner-execute bit. -/
def UserExecutable : Nat := 2 ^ 6

/-- utils.FileExists: stat succeeds, or IsNotExist maps to a clean false. -/
def FileExists (fs : FS) (path : String) : Bool :=
  (statMode fs path).isSome

/-- utils.IsExecutable: true iff the stat mode has the owner-execute bit;
stat failure (missing file) is an error. -/
def IsExecutable (fs : FS) (path : String) : Except GoError Bool :=
  match statMode fs path with
  | none => .error (.msg "stat: no such file")
  | some m => .ok (m &&& UserExecutable != 0)

/-- os.Chmod: set the mode of an existing file; error when it is missing. -/
def chmod (fs : FS) (path : String) (newMode : Nat) : Except GoError FS :=
  if FileExists fs path then
    .ok ⟨fs.files.map (fun f => if f.path == path then ⟨f.path, newMode⟩ else f)⟩
  else
    .error (.msg "chmod: no such file")

/-- filepath.Join of two components (separator fixed to the slash). -/
def joinPath (a b : String) : String :=
  a ++ "/" ++ b

/-- The expected executable path, launcher.go lines 260-265: launcher.exe on
Windows, launcher elsewhere, inside the per-commit cache directory. -/
def launcherBinPath (goos versionsDir commit : String) : String :=
  if goos == "windows" then
    joinPath (joinPath versionsDir commit) "launcher.exe"
  else
    joinPath (joinPath versionsDir commit) "launcher"

/-- The cache-check-then-fetch step of Launcher.Start (lines 260-275): when the
expected executable already exists the download is skipped entirely, otherwise
DownloadLatestBinary runs (abstracted as the download argument).  The Nat in
the result counts the download/fetch invocations performed. -/
def ensureLocal (goos versionsDir commit : String) (fs : FS)
    (download : FS → Except GoError FS) : Except GoError (String × FS × Nat) :=
  let launcher := launcherBinPath goos versionsDir commit
  if FileExists fs launcher then
    .ok (launcher, fs, 0)
  else
    match download fs with
    | .error e => .error e
    | .ok fs2 => .ok (launcher, fs2, 1)

/-- The verify step of Launcher.Start (lines 277-287): only on linux and
darwin, check the owner-execute bit and chmod to 0755 when it is unset. -/
def verifyExec (goos : String) (fs : FS) (launcher : String) : Except GoError FS :=
  if goos == "linux" || goos == "darwin" then
    match IsExecutable fs launcher with
    | .error e => .error e
    | .ok true => .ok fs
    | .ok false => chmod fs launcher 0o755
  else
    .ok fs

/-- getHomeDir: the per-OS application home; any OS other than linux, darwin
and windows is rejected as unsupported. -/
def getHomeDir (home goos : String) : Except GoError String :=
  if goos == "linux" then
    .ok (joinPath home ".opendex-docker")
  else if goos == "darwin" then
    .ok (joinPath (joinPath (joinPath home "Library") "Application Support") "OpendexDocker")
  else if goos == "windows" then
    .ok (joinPath (joinPath (joinPath home "AppData") "Local") "OpendexDocker")
  else
    .error (.msg ("unsupported platform: " ++ goos))

/-! ## main (error reporting) -/

/-- main: on a Start error, print the error text only when the Debug flag is
set, and exit 1; on success exit 0.  Result: exit code and printed lines. -/
def mainRun (debug : Bool) (startResult : Option GoError) : Nat × List String :=
  match startResult with
  | none => (0, [])
  | some e => (1, if debug then [e.text] else [])

/-! ## unzip (archive extraction) -/

/-- One archive entry as zip.OpenReader yields it: the recorded name, split
into path components, the directory flag, and the file content. -/
structure ZipEntry where
  name : List String
  isDir : Bool
  content : String
deriving Repr, DecidableEq

/-- Path resolution of a relative name against a base directory, as the OS
resolves the paths unzip passes to os.OpenFile after the Chdir into the
destination: a dot-dot component pops one directory, a dot or empty component
is skipped, anything else descends. -/
def resolveComp (base : List String) (comps : List String) : List String :=
  comps.foldl
    (fun acc c =>
      if c == ".." then acc.dropLast
      else if c == "." || c == "" then acc
      else acc ++ [c])
    base

/-- A resolved path lies within the destination directory when the
destination's components are a prefix of it. -/
def withinDir (dest path : List String) : Prop :=
  dest <+: path

/-- unzip, run from the destination directory (downloadLauncher does Chdir
there first): every file entry is written at its recorded name resolved
against the destination, with no validation of the name; directory entries
only create directories.  The model records the written files in order. -/
def unzip (dest : List String) (entries : List ZipEntry)
    (written : List (List String × String)) : List (List String × String) :=
  entries.foldl
    (fun acc e =>
      if e.isDir then acc
      else acc ++ [(resolveComp dest e.name, e.content)])
    written

/-! ## Spec-side comparison definition (refinement target for the platform
filter) -/

/-- Written from the spec's words, for comparison with the code: select
exactly the first artifact whose name equals the given key, ignore all other
entries, and fail with NotFound when none matches. -/
def selectByName (key : String) : List Artifact → Outcome String
  | [] => .err .notFound
  | a :: rest =>
    if a.name = key then .ok a.archiveDownloadUrl else selectByName key rest

/-! ## Concrete fixtures for counterexamples and witnesses -/

/-- An oracle whose commit endpoint always answers with sha abc0123. -/
def netTag : Net :=
  ⟨fun _ => .ok (.obj [("sha", .str "abc0123")]),
   fun _ => .error .notFound,
   fun _ => .error .notFound⟩

/-- A build run of branch dev at commit c0ffee. -/
def runDev : WorkflowRun := ⟨7, "2021-06-01T00:00:00Z", "dev", "c0ffee"⟩

/-- Oracle with one matching run for dev but an empty artifact listing. -/
def netC2fix : Net :=
  ⟨fun _ => .ok .null,
   fun _ => .ok ⟨1, [runDev]⟩,
   fun _ => .ok ⟨0, []⟩⟩

/-- A build run whose head commit is not the resolved one. -/
def runMismatch : WorkflowRun := ⟨8, "2021-06-01T00:00:00Z", "dev", "other"⟩

/-- Oracle whose run listing returns only the mismatching run. -/
def netC3fix : Net :=
  ⟨fun _ => .ok .null,
   fun _ => .ok ⟨1, [runMismatch]⟩,
   fun _ => .error .notFound⟩

/-- An artifact listing holding exactly the arm64 artifact of a linux host. -/
def artsArm : ArtifactList := ⟨1, [⟨"linux-arm64", 9, "https://ci.example/arm"⟩]⟩

/-- Oracle serving the arm64-only artifact listing. -/
def netC4fix : Net :=
  ⟨fun _ => .ok .null,
   fun _ => .error .notFound,
   fun _ => .ok artsArm⟩

/-- An artifact listing with artifacts of two platforms. -/
def artsTwo : ArtifactList :=
  ⟨2, [⟨"darwin-amd64", 9, "https://ci.example/mac"⟩,
       ⟨"linux-amd64", 9, "https://ci.example/linux"⟩]⟩

/-- Oracle serving the two-platform artifact listing. -/
def netC4wfix : Net :=
  ⟨fun _ => .ok .null,
   fun _ => .error .notFound,
   fun _ => .ok artsTwo⟩

/-- Lexicographic strict order on character lists: the order of ISO-8601
timestamps such as the created_at field of a workflow run. -/
def lexLtChars : List Char → List Char → Bool
  | [], [] => false
  | [], _ :: _ => true
  | _ :: _, [] => false
  | a :: as, b :: bs =>
    if a < b then true else if b < a then false else lexLtChars as bs

/-- Timestamp a is strictly earlier than timestamp b (ISO-8601 strings order
chronologically exactly as they order lexicographically). -/
def createdBefore (a b : String) : Bool :=
  lexLtChars a.data b.data

/-- An older run, listed first. -/
def runOld : WorkflowRun := ⟨1, "2020-01-01T00:00:00Z", "dev", "c0ffee"⟩

/-- A newer run, listed second. -/
def runNew : WorkflowRun := ⟨2, "2021-01-01T00:00:00Z", "dev", "c0ffee"⟩

/-- Oracle whose run listing is NOT ordered newest-first: the older run comes
first. -/
def netC5fix : Net :=
  ⟨fun _ => .ok .null,
   fun _ => .ok ⟨2, [runOld, runNew]⟩,
   fun _ => .error .notFound⟩

/-- Oracle whose run listing leads with a run matching the commit. -/
def netC5wfix : Net :=
  ⟨fun _ => .ok .null,
   fun _ => .ok ⟨2, [runNew, runOld]⟩,
   fun _ => .error .notFound⟩

/-- Oracle whose 200 commit response decodes to an object with no sha key. -/
def netNoSha : Net :=
  ⟨fun _ => .ok (.obj [("msg", .str "x")]),
   fun _ => .error .notFound,
   fun _ => .error .notFound⟩

/-- An empty filesystem. -/
def fsEmpty : FS := ⟨[]⟩

/-- A download effect that materializes the launcher binary of commit c0ffee
with mode 0644 under versions directory v. -/
def dlC6 : FS → Except GoError FS :=
  fun fs => .ok ⟨fs.files ++ [⟨"v/c0ffee/launcher", 0o644⟩]⟩

/-- The filesystem after that download: the binary exists, mode 0644. -/
def fsBin644 : FS := ⟨[⟨"v/c0ffee/launcher", 0o644⟩]⟩

/-- The same filesystem after chmod 0755 of the binary. -/
def fsBin755 : FS := ⟨[⟨"v/c0ffee/launcher", 0o755⟩]⟩

/-- The destination directory of an extraction. -/
def destC9 : List String := ["home", "launcher", "versions", "abc"]

/-- An archive entry whose recorded name climbs out of the destination. -/
def evilC9 : ZipEntry := ⟨["..", "evil"], false, "x"⟩

/-! ## Theorems -/

/-- C1, counterexample: for the branch 21.06.03, which matches the release-tag
pattern, version resolution (Launcher.Start line 250) still performs a
commit-lookup network call and returns the looked-up sha — not the branch
string — as the version identifier. -/
theorem C1_counterexample :
    releaseRefMatch "21.06.03" = true ∧
    resolveVersion netTag "21.06.03" = (.ok "abc0123", [.commitLookup "21.06.03"]) ∧
    ("abc0123" : String) ≠ "21.06.03" :=
  ⟨by decide, rfl, by decide⟩

/-- C1, amended: version resolution performs exactly one commit-lookup call
for every branch string, matching the release-tag pattern or not, and the
returned sha is the identifier; the pattern only short-circuits the locate
stage, where a matching branch yields the deterministic release URL with zero
API calls and a non-matching branch begins with a run-listing call. -/
theorem C1_resolution_always_one_lookup (goos goarch : String) (net : Net)
    (branch commit sha : String)
    (h : net.commitResp branch = .ok (.obj [("sha", .str sha)])) :
    resolveVersion net branch = (.ok sha, [.commitLookup branch]) ∧
    (releaseRefMatch branch = true →
      getDownloadUrl goos goarch net branch commit =
        (.ok (releaseAssetUrl goos goarch branch), [])) ∧
    (releaseRefMatch branch = false →
      (getDownloadUrl goos goarch net branch commit).2.head? =
        some (.runListing branch)) := by
  refine ⟨?_, ?_, ?_⟩
  · simp [resolveVersion, GetHeadCommit, h, lookupField]
  · intro ht
    simp [getDownloadUrl, ht]
  · intro hf
    have h2 : (getLastRunOfBranch net branch commit).2 = [.runListing branch] := rfl
    rcases hr : getLastRunOfBranch net branch commit with ⟨r, calls⟩
    have hc : calls = [.runListing branch] := by rw [hr] at h2; exact h2
    subst hc
    cases r with
    | err e =>
      cases he : e.isNotFound <;> simp [getDownloadUrl, hf, hr, he]
    | panic => simp [getDownloadUrl, hf, hr]
    | ok run =>
      have h3 : (getWorkflowDownloadUrl goos net run.id).2 = [.artifactListing run.id] := rfl
      rcases hw : getWorkflowDownloadUrl goos net run.id with ⟨r2, calls2⟩
      have hc2 : calls2 = [.artifactListing run.id] := by rw [hw] at h3; exact h3
      subst hc2
      cases r2 <;> simp [getDownloadUrl, hf, hr, hw]

/-- C1, witness for the amended theorem at the tag-shaped branch 21.06.03. -/
theorem C1_resolution_witness :
    resolveVersion netTag "21.06.03" = (.ok "abc0123", [.commitLookup "21.06.03"]) ∧
    (releaseRefMatch "21.06.03" = true →
      getDownloadUrl "linux" "amd64" netTag "21.06.03" "c0ffee" =
        (.ok (releaseAssetUrl "linux" "amd64" "21.06.03"), [])) ∧
    (releaseRefMatch "21.06.03" = false →
      (getDownloadUrl "linux" "amd64" netTag "21.06.03" "c0ffee").2.head? =
        some (.runListing "21.06.03")) :=
  C1_resolution_always_one_lookup "linux" "amd64" netTag "21.06.03" "c0ffee" "abc0123" rfl

/-- C2: on the branch path, when the artifact lookup for the selected run
fails with any error (ErrNotFound from an empty or non-matching listing
included), getDownloadUrl returns an empty URL together with a nil error. -/
theorem C2_swallows_artifact_lookup_error (goos goarch : String) (net : Net)
    (branch commit : String) (run : WorkflowRun) (e : GoError)
    (hb : releaseRefMatch branch = false)
    (hrun : (getLastRunOfBranch net branch commit).1 = .ok run)
    (hart : (getWorkflowDownloadUrl goos net run.id).1 = .err e) :
    (getDownloadUrl goos goarch net branch commit).1 = .ok "" := by
  have hpair : getLastRunOfBranch net branch commit = (.ok run, [.runListing branch]) :=
    Prod.ext_iff.mpr ⟨hrun, rfl⟩
  have hpair2 : getWorkflowDownloadUrl goos net run.id = (.err e, [.artifactListing run.id]) :=
    Prod.ext_iff.mpr ⟨hart, rfl⟩
  simp [getDownloadUrl, hb, hpair, hpair2]

/-- C2, witness: branch dev at commit c0ffee with a matching run but an empty
artifact listing yields success with an empty URL. -/
theorem C2_witness :
    (getDownloadUrl "linux" "amd64" netC2fix "dev" "c0ffee").1 = .ok "" :=
  C2_swallows_artifact_lookup_error "linux" "amd64" netC2fix "dev" "c0ffee"
    runDev .notFound rfl rfl rfl

/-- C10: a 200 commit response whose decoded body has no string sha field
makes GetHeadCommit panic on the unchecked type assertion, and a non-success
response whose JSON object body has no string message field makes
getResponseError panic likewise. -/
theorem C10_unchecked_type_assertions :
    netNoSha.commitResp "master" = .ok (.obj [("msg", .str "x")]) ∧
    (GetHeadCommit netNoSha "master").1 = .panic ∧
    getResponseError 404 (.obj [("documentation_url", .str "u")]) = .panic :=
  ⟨rfl, rfl, rfl⟩

/-- The in-order scan of getWorkflowDownloadUrl agrees with the spec-side
first-match selection. -/
theorem find?_eq_selectByName (key : String) :
    ∀ l : List Artifact,
      (match l.find? (fun a => key == a.name) with
       | some a => Outcome.ok a.archiveDownloadUrl
       | none => Outcome.err .notFound) = selectByName key l := by
  intro l
  induction l with
  | nil => simp [selectByName]
  | cons a rest ih =>
    by_cases hk : a.name = key
    · simp [selectByName, hk, List.find?]
    · have hne : (key == a.name) = false := by
        simp only [beq_eq_false_iff_ne, ne_eq]
        exact fun h2 => hk h2.symm
      simp only [List.find?, hne]
      rw [ih]
      simp [selectByName, hk]

/-- C3: with the first listed run read as the most recent one (the upstream
API returns runs newest-first and the code takes index 0), an empty run list
and a head-commit mismatch of that run both end in ErrNotFound, and a run is
returned only when its head commit equals the resolved identifier — and then
it is one of the listed runs, never a fabricated artifact. -/
theorem C3_commit_mismatch_guard (net : Net) (branch commit : String)
    (runs : WorkflowRunList) (h : net.runsResp branch = .ok runs) :
    (runs.workflowRuns = [] →
      (getLastRunOfBranch net branch commit).1 = .err .notFound) ∧
    (∀ r rest, runs.workflowRuns = r :: rest → r.headSha ≠ commit →
      (getLastRunOfBranch net branch commit).1 = .err .notFound) ∧
    (∀ run, (getLastRunOfBranch net branch commit).1 = .ok run →
      run.headSha = commit ∧ run ∈ runs.workflowRuns) := by
  refine ⟨?_, ?_, ?_⟩
  · intro he
    simp [getLastRunOfBranch, h, he]
  · intro r rest hcons hne
    simp [getLastRunOfBranch, h, hcons, hne]
  · intro run hok
    simp only [getLastRunOfBranch, h] at hok
    rcases hruns : runs.workflowRuns with _ | ⟨r, rest⟩
    · rw [hruns] at hok
      simp at hok
    · rw [hruns] at hok
      by_cases hsha : r.headSha = commit
      · have hb : (r.headSha != commit) = false := by simp [hsha]
        simp [hb] at hok
        subst hok
        exact ⟨hsha, List.mem_cons_self _ _⟩
      · have hb : (r.headSha != commit) = true := by simp [hsha]
        simp [hb] at hok

/-- C3, witness: a listing whose first run carries head commit other while the
resolved identifier is c0ffee fails with ErrNotFound. -/
theorem C3_witness :
    (getLastRunOfBranch netC3fix "dev" "c0ffee").1 = .err .notFound :=
  (C3_commit_mismatch_guard netC3fix "dev" "c0ffee" ⟨1, [runMismatch]⟩ rfl).2.1
    runMismatch [] rfl (by decide)

/-- C4, counterexample: on a linux host with CPU architecture arm64, the
platform key of the spec is linux-arm64 and the artifact listing contains an
entry of exactly that name, yet the locator fails with ErrNotFound, because
the code filters by the hardcoded name linux-amd64. -/
theorem C4_counterexample :
    platformKey "linux" "arm64" = "linux-arm64" ∧
    netC4fix.artifactsResp 7 = .ok artsArm ∧
    artsArm.artifacts.map Artifact.name = ["linux-arm64"] ∧
    (getWorkflowDownloadUrl "linux" netC4fix 7).1 = .err .notFound :=
  ⟨rfl, rfl, rfl, rfl⟩

/-- C4, amended: the locator selects exactly the first artifact whose name
equals GOOS-amd64 — the architecture part is hardcoded to amd64, so the filter
name coincides with the spec's platform key precisely on amd64 hosts — ignores
all other entries, and fails with ErrNotFound when none matches. -/
theorem C4_platform_filter_hardcoded_arch (goos : String) (net : Net)
    (runId : Nat) (arts : ArtifactList)
    (h : net.artifactsResp runId = .ok arts) :
    (getWorkflowDownloadUrl goos net runId).1 =
      selectByName (ciArtifactName goos) arts.artifacts ∧
    ciArtifactName goos = platformKey goos "amd64" := by
  constructor
  · simp only [getWorkflowDownloadUrl, h]
    exact find?_eq_selectByName _ _
  · show goos ++ "-amd64" = goos ++ "-" ++ "amd64"
    rw [String.append_assoc]
    exact congrArg (fun s => goos ++ s) (by decide)

/-- C4, witness: among artifacts of two platforms on a linux amd64 host the
first-match selection picks the linux-amd64 entry. -/
theorem C4_witness :
    (getWorkflowDownloadUrl "linux" netC4wfix 7).1 =
      selectByName (ciArtifactName "linux") artsTwo.artifacts ∧
    ciArtifactName "linux" = platformKey "linux" "amd64" :=
  C4_platform_filter_hardcoded_arch "linux" netC4wfix 7 artsTwo rfl

/-- C5, counterexample: on a run listing that is not ordered newest-first the
code returns the first listed run even though another listed run has a
strictly more recent creation timestamp. -/
theorem C5_counterexample :
    netC5fix.runsResp "dev" = .ok ⟨2, [runOld, runNew]⟩ ∧
    (getLastRunOfBranch netC5fix "dev" "c0ffee").1 = .ok runOld ∧
    runNew ∈ [runOld, runNew] ∧
    createdBefore runOld.createdAt runNew.createdAt = true :=
  ⟨rfl, rfl, by decide, by decide⟩

/-- C5, amended: the code selects the first run of the listing — most recent
only by the upstream API's newest-first ordering convention, with no timestamp
comparison — and any returned run is one of the listed runs; information of
several runs is never combined. -/
theorem C5_selects_first_run (net : Net) (branch commit : String)
    (r : WorkflowRun) (rest : List WorkflowRun) (n : Nat)
    (h : net.runsResp branch = .ok ⟨n, r :: rest⟩) (hm : r.headSha = commit) :
    (getLastRunOfBranch net branch commit).1 = .ok r ∧
    ∀ run, (getLastRunOfBranch net branch commit).1 = .ok run →
      run ∈ r :: rest := by
  have hb : (r.headSha != commit) = false := by simp [hm]
  constructor
  · simp [getLastRunOfBranch, h, hb]
  · intro run hok
    simp [getLastRunOfBranch, h, hb] at hok
    simp [← hok]

/-- C5, witness: a newest-first listing with the leading run matching the
commit yields that leading run. -/
theorem C5_witness :
    (getLastRunOfBranch netC5wfix "dev" "c0ffee").1 = .ok runNew ∧
    ∀ run, (getLastRunOfBranch netC5wfix "dev" "c0ffee").1 = .ok run →
      run ∈ runNew :: [runOld] :=
  C5_selects_first_run netC5wfix "dev" "c0ffee" runNew [runOld] 2 rfl rfl

/-- C6: when a first materialization attempt succeeds and afterwards the
executable exists at the computed cache path, a second invocation with the
same version identifier performs zero download invocations, returns the same
path, and leaves the filesystem untouched. -/
theorem C6_materialization_idempotent (goos vd commit : String) (fs fs1 : FS)
    (download : FS → Except GoError FS) (p : String) (n : Nat)
    (h1 : ensureLocal goos vd commit fs download = .ok (p, fs1, n))
    (h2 : FileExists fs1 p = true) :
    ensureLocal goos vd commit fs1 download = .ok (p, fs1, 0) := by
  simp only [ensureLocal] at h1 ⊢
  split at h1
  · obtain ⟨hp, hfs, -⟩ : launcherBinPath goos vd commit = p ∧ fs = fs1 ∧ 0 = n := by
      simpa using h1
    subst hp
    subst hfs
    simp [h2]
  · cases hd : download fs with
    | error e =>
      rw [hd] at h1
      simp at h1
    | ok fs2 =>
      rw [hd] at h1
      obtain ⟨hp, hfs, -⟩ : launcherBinPath goos vd commit = p ∧ fs2 = fs1 ∧ 1 = n := by
        simpa using h1
      subst hp
      subst hfs
      simp [h2]

/-- C6, witness: after a first run materializes the binary of commit c0ffee,
the second run is a pure cache hit. -/
theorem C6_witness :
    ensureLocal "linux" "v" "c0ffee" fsBin644 dlC6 =
      .ok ("v/c0ffee/launcher", fsBin644, 0) :=
  C6_materialization_idempotent "linux" "v" "c0ffee" fsEmpty fsBin644 dlC6
    "v/c0ffee/launcher" 1 rfl rfl

/-- A file lookup that succeeds still succeeds after rewriting the modes, and
returns the new mode. -/
theorem find?_map_setMode (p : String) (nm : Nat) :
    ∀ l : List FSFile,
      (l.find? (fun f => f.path == p)).isSome = true →
      (l.map (fun f => if f.path == p then FSFile.mk f.path nm else f)).find?
          (fun f => f.path == p) = some ⟨p, nm⟩ := by
  intro l
  induction l with
  | nil => intro h; simp at h
  | cons f rest ih =>
    intro h
    by_cases hf : f.path = p
    · have hb : (f.path == p) = true := by simp [hf]
      simp [List.find?, hb, hf]
    · have hb : (f.path == p) = false := by simp [hf]
      have h2 : (rest.find? (fun f => f.path == p)).isSome = true := by
        rw [List.find?] at h
        rw [hb] at h
        exact h
      simp only [List.map_cons, hb, Bool.false_eq_true, if_false, List.find?]
      exact ih h2

/-- A successful chmod sets exactly the requested mode at the path. -/
theorem statMode_chmod (fs fs2 : FS) (p : String) (nm : Nat)
    (h : chmod fs p nm = .ok fs2) : statMode fs2 p = some nm := by
  by_cases hex : FileExists fs p = true
  · have hf : (fs.files.find? (fun f => f.path == p)).isSome = true := by
      have : (statMode fs p).isSome = true := hex
      simpa [statMode] using this
    unfold chmod at h
    rw [if_pos hex] at h
    have hfs2 : fs2 =
        ⟨fs.files.map (fun f => if f.path == p then FSFile.mk f.path nm else f)⟩ :=
      (Except.ok.inj h).symm
    rw [hfs2]
    unfold statMode
    rw [find?_map_setMode p nm fs.files hf]
    rfl
  · simp [chmod, hex] at h

/-- C7: on any non-Windows platform the launcher supports at all (its home
directory lookup succeeds, which forces linux or darwin), a completed verify
step leaves the binary with the owner-execute bit set — unchanged when the bit
was already set, and chmodded to exactly 0755 when it was not. -/
theorem C7_executable_bit (goos home : String) (fs fs2 : FS) (launcher : String)
    (hw : goos ≠ "windows")
    (hh : ∃ d, getHomeDir home goos = .ok d)
    (hv : verifyExec goos fs launcher = .ok fs2) :
    ∃ m0 m, statMode fs launcher = some m0 ∧ statMode fs2 launcher = some m ∧
      m &&& UserExecutable ≠ 0 ∧
      ((m0 &&& UserExecutable ≠ 0 ∧ fs2 = fs) ∨
       (m0 &&& UserExecutable = 0 ∧ m = 0o755)) := by
  have hld : goos = "linux" ∨ goos = "darwin" := by
    by_contra hc
    push_neg at hc
    obtain ⟨d, hd⟩ := hh
    simp [getHomeDir, hc.1, hc.2, hw] at hd
  have hcond : (goos == "linux" || goos == "darwin") = true := by
    rcases hld with h | h <;> simp [h]
  simp only [verifyExec, hcond, if_true] at hv
  rcases he : IsExecutable fs launcher with e | b
  · rw [he] at hv
    simp at hv
  · rw [he] at hv
    rcases hm0 : statMode fs launcher with _ | m0
    · unfold IsExecutable at he
      rw [hm0] at he
      simp at he
    · unfold IsExecutable at he
      rw [hm0] at he
      have hb : b = (m0 &&& UserExecutable != 0) := by
        have h3 := he
        simp at h3
        exact h3.symm
      cases b with
      | true =>
        simp at hv
        subst hv
        have hbit : m0 &&& UserExecutable ≠ 0 := by
          have h4 : (m0 &&& UserExecutable != 0) = true := hb.symm
          simpa using h4
        exact ⟨m0, m0, rfl, hm0, hbit, .inl ⟨hbit, rfl⟩⟩
      | false =>
        simp only [] at hv
        have hbit : m0 &&& UserExecutable = 0 := by
          have h4 : (m0 &&& UserExecutable != 0) = false := hb.symm
          simpa using h4
        have hstat := statMode_chmod fs fs2 launcher 0o755 hv
        exact ⟨m0, 0o755, rfl, hstat, by decide, .inr ⟨hbit, rfl⟩⟩

/-- C7, witness: a linux binary with mode 0644 comes out of the verify step
with mode 0755. -/
theorem C7_witness :
    ∃ m0 m, statMode fsBin644 "v/c0ffee/launcher" = some m0 ∧
      statMode fsBin755 "v/c0ffee/launcher" = some m ∧
      m &&& UserExecutable ≠ 0 ∧
      ((m0 &&& UserExecutable ≠ 0 ∧ fsBin755 = fsBin644) ∨
       (m0 &&& UserExecutable = 0 ∧ m = 0o755)) :=
  C7_executable_bit "linux" "h" fsBin644 fsBin755 "v/c0ffee/launcher"
    (by decide) ⟨joinPath "h" ".opendex-docker", rfl⟩ rfl

/-- C8: whenever Start fails, main exits with the non-zero status 1, prints
the error text exactly when the debug flag is on, and prints nothing at all
when it is off. -/
theorem C8_exit_and_debug_print (debug : Bool) (e : GoError) :
    (mainRun debug (some e)).1 ≠ 0 ∧
    ((mainRun debug (some e)).2 = [e.text] ↔ debug = true) ∧
    (debug = false → (mainRun debug (some e)).2 = []) := by
  cases debug <;> simp [mainRun]

/-- C8, witness: with debug off a failure exits 1 and prints nothing. -/
theorem C8_witness :
    (mainRun false (some (.msg "boom"))).1 ≠ 0 ∧
    ((mainRun false (some (.msg "boom"))).2 = [(GoError.msg "boom").text] ↔
      false = true) ∧
    (false = false → (mainRun false (some (.msg "boom"))).2 = []) :=
  C8_exit_and_debug_print false (.msg "boom")

/-- Peeling one archive entry off an extraction. -/
theorem unzip_cons (dest : List String) (e : ZipEntry) (rest : List ZipEntry)
    (written : List (List String × String)) :
    unzip dest (e :: rest) written =
      unzip dest rest
        (if e.isDir then written
         else written ++ [(resolveComp dest e.name, e.content)]) := rfl

/-- Extraction never drops files already written. -/
theorem mem_unzip_written (dest : List String) :
    ∀ (entries : List ZipEntry) (written : List (List String × String))
      (q : List String × String), q ∈ written → q ∈ unzip dest entries written := by
  intro entries
  induction entries with
  | nil => intro written q hq; exact hq
  | cons e rest ih =>
    intro written q hq
    rw [unzip_cons]
    by_cases hd : e.isDir = true
    · rw [if_pos hd]
      exact ih written q hq
    · rw [if_neg hd]
      exact ih _ q (List.mem_append_left _ hq)

/-- Every file entry of the archive ends up written at its recorded name
resolved against the destination. -/
theorem unzip_writes_every_file (dest : List String) :
    ∀ (entries : List ZipEntry) (written : List (List String × String))
      (e : ZipEntry), e ∈ entries → e.isDir = false →
      (resolveComp dest e.name, e.content) ∈ unzip dest entries written := by
  intro entries
  induction entries with
  | nil =>
    intro written e he _
    exact absurd he (List.not_mem_nil e)
  | cons x rest ih =>
    intro written e he hdir
    rw [unzip_cons]
    rcases List.mem_cons.mp he with rfl | hmem
    · rw [if_neg (by simp [hdir])]
      exact mem_unzip_written dest rest _ _
        (List.mem_append_right _ (List.mem_singleton.mpr rfl))
    · exact ih _ e hmem hdir

/-- C9: extraction writes every file entry at exactly the path recorded in the
archive, resolved against the destination with no validation; in particular an
entry named dot-dot slash evil is created outside the destination directory. -/
theorem C9_no_path_validation :
    (∀ (dest : List String) (entries : List ZipEntry)
       (written : List (List String × String)) (e : ZipEntry),
       e ∈ entries → e.isDir = false →
       (resolveComp dest e.name, e.content) ∈ unzip dest entries written) ∧
    resolveComp destC9 evilC9.name = ["home", "launcher", "versions", "evil"] ∧
    (resolveComp destC9 evilC9.name, evilC9.content) ∈ unzip destC9 [evilC9] [] ∧
    ¬ withinDir destC9 (resolveComp destC9 evilC9.name) := by
  refine ⟨unzip_writes_every_file, rfl, List.mem_singleton.mpr rfl, ?_⟩
  show ¬ withinDir destC9 ["home", "launcher", "versions", "evil"]
  rintro ⟨t, ht⟩
  simp [destC9] at ht

/-- C9, witness: the escaping entry is indeed among the written files of a
concrete extraction. -/
theorem C9_witness :
    (resolveComp destC9 evilC9.name, evilC9.content) ∈ unzip destC9 [evilC9] [] :=
  C9_no_path_validation.1 destC9 [evilC9] [] evilC9
    (List.mem_singleton.mpr rfl) rfl

end OpendexLauncher
